import Mathlib

/-!
Verification of the bike-surface-ai spatial-aggregation and resilient-delivery
subsystem against its specification.

The Python sources are shallowly embedded here:

* `src/edge/group_damages.py` — online damage clustering (`DamageGrouper`),
  haversine distance (`calculate_distance`), grouper severity table;
* `src/edge/auto_live_system.py` — surface smoothing vote (`process_surface`)
  and the configurable severity classifier (`calculate_severity`);
* `src/edge/update_github_pages.py` — route segmentation (`segment_by_surface`);
* `src/edge/main.py` — upload / local-backup pipeline (`upload_to_cloud`,
  `save_local_backup`, `cleanup_old_backups`, `convert_to_geojson`).

Modelling conventions:

* Python floats are modelled by a linearly ordered field `α`; theorems are
  stated generically and instantiated at `ℝ` (with the real haversine) for
  counterexamples and at `ℚ` for executable witnesses.
* ISO-8601 timestamp strings compare lexicographically, which coincides with
  chronological order; they are modelled by naturals (`ℕ`).
* Python dictionaries with optional keys are modelled by structures with
  `Option` fields; `dict.get(k, default)` becomes `Option.getD`.
* Python's stable `sorted(key=...)` is modelled as a sort over the
  lexicographic key `(timestamp, original index)`, which characterises the
  stable sort uniquely.
-/

namespace BikeSurface

/-! ## Data model for `DamageGrouper` (src/edge/group_damages.py) -/

/-- The `gps` sub-dictionary of a detection record: both keys may be absent. -/
structure GpsData (α : Type) where
  latitude : Option α
  longitude : Option α
deriving DecidableEq

/-- One detection record as consumed by `DamageGrouper.group_detections`.
`cls` and `confidence` model the inner `detection` dictionary's `class` and
`confidence` keys (absent keys allowed, defaults applied at the use sites). -/
structure Detection (α : Type) where
  timestamp : ℕ
  gps : GpsData α
  cls : Option String
  confidence : Option α
deriving DecidableEq

/-- `detection.get('detection', {}).get('class', 'unknown')`. -/
def Detection.clsD {α : Type} (d : Detection α) : String :=
  d.cls.getD "unknown"

/-- `detection.get('detection', {}).get('confidence', 0)`. -/
def Detection.confD {α : Type} [Zero α] (d : Detection α) : α :=
  d.confidence.getD 0

/-- A cluster (`group` dictionary) as built inside the grouping loop. -/
structure Group (α : Type) where
  id : ℕ
  damage_type : String
  centerLat : α
  centerLon : α
  detections : List (Detection α)
  created : ℕ
deriving DecidableEq

/-- A cluster after the statistics pass at the end of `group_detections`. -/
structure FinalGroup (α : Type) extends Group α where
  image_count : ℕ
  avg_confidence : α
  best_confidence : α
  first_seen : ℕ
  last_seen : ℕ
deriving DecidableEq

/-- Python truthiness test used by `if not gps.get('latitude')`: an absent key
and the value `0` are both falsy. -/
def isFalsy {α : Type} [Zero α] [DecidableEq α] : Option α → Bool
  | none => true
  | some x => decide (x = 0)

/-- `d.get('gps')` truthiness: the gps dictionary is truthy iff it has a key. -/
def hasGps {α : Type} (d : Detection α) : Bool :=
  d.gps.latitude.isSome || d.gps.longitude.isSome

/-- `DamageGrouper._update_group_center`: the centre is recomputed as the
arithmetic mean of the members that carry a gps dictionary.  (Members always
passed the falsy-gps guard, so the key accesses are total.) -/
def update_group_center {α : Type} [LinearOrderedField α] (g : Group α) : Group α :=
  let withGps := g.detections.filter hasGps
  let count := withGps.length
  if 0 < count then
    { g with
      centerLat := (withGps.map (fun d => d.gps.latitude.getD 0)).sum / (count : α)
      centerLon := (withGps.map (fun d => d.gps.longitude.getD 0)).sum / (count : α) }
  else g

/-- The `for group in groups` search of `group_detections`: try the existing
clusters in creation order and attach the event to the FIRST one whose centre
is within `maxd` and whose type matches (`break` on the first hit); `none`
when no cluster qualifies.  The distance function is the imported
`calculate_distance` helper, passed explicitly. -/
def attachDetection {α : Type} [LinearOrderedField α]
    (dist : α → α → α → α → α) (maxd : α) (lat lon : α) (dtype : String)
    (d : Detection α) : List (Group α) → Option (List (Group α))
  | [] => none
  | g :: gs =>
    if dist lat lon g.centerLat g.centerLon ≤ maxd ∧ g.damage_type = dtype then
      some (update_group_center { g with detections := g.detections ++ [d] } :: gs)
    else
      (attachDetection dist maxd lat lon dtype d gs).map (g :: ·)

/-- The body of the main loop of `DamageGrouper.group_detections` for one
event: skip it when a gps coordinate is absent or `0` (Python falsy test),
else attach it to the first qualifying cluster or open a new one. -/
def insertDetection {α : Type} [LinearOrderedField α] [DecidableEq α]
    (dist : α → α → α → α → α) (maxd : α)
    (groups : List (Group α)) (d : Detection α) : List (Group α) :=
  if isFalsy d.gps.latitude || isFalsy d.gps.longitude then groups
  else
    let lat := d.gps.latitude.getD 0
    let lon := d.gps.longitude.getD 0
    let dtype := d.clsD
    match attachDetection dist maxd lat lon dtype d groups with
    | some gs => gs
    | none =>
      groups ++ [{ id := groups.length + 1, damage_type := dtype,
                   centerLat := lat, centerLon := lon,
                   detections := [d], created := d.timestamp }]

/-- Key order for `sorted(detections, key=lambda d: d.get('timestamp', ''))`:
the lexicographic order on `(timestamp, original index)`.  A stable sort by a
key is exactly a sort by this tie-free lexicographic key. -/
def tsKeyLe {α : Type} (a b : ℕ × Detection α) : Prop :=
  a.2.timestamp < b.2.timestamp ∨ (a.2.timestamp = b.2.timestamp ∧ a.1 ≤ b.1)

instance tsKeyLeDec {α : Type} : DecidableRel (tsKeyLe (α := α)) := fun a b => by
  unfold tsKeyLe; infer_instance

/-- Python's stable `sorted(..., key=timestamp)`. -/
def sortByTimestamp {α : Type} (dets : List (Detection α)) : List (Detection α) :=
  (List.insertionSort tsKeyLe dets.enum).map Prod.snd

/-- The statistics pass applied to each group after the main loop of
`group_detections`: re-sort members by timestamp (stable), then add
`image_count`, `avg_confidence`, `best_confidence`, `first_seen`, `last_seen`.
Groups are never empty, so the `max` and the division are total in Python;
the `[]` branches below are unreachable. -/
def finalizeGroup {α : Type} [LinearOrderedField α] (g : Group α) : FinalGroup α :=
  let sorted := sortByTimestamp g.detections
  { toGroup := { g with detections := sorted }
    image_count := sorted.length
    avg_confidence := (sorted.map Detection.confD).sum / (sorted.length : α)
    best_confidence :=
      match sorted.map Detection.confD with
      | [] => 0
      | x :: xs => xs.foldl max x
    first_seen := match sorted with | [] => 0 | d :: _ => d.timestamp
    last_seen := ((sorted.getLast?).map Detection.timestamp).getD 0 }

/-- `DamageGrouper.group_detections`: time-sort the events (stable), run the
first-match clustering loop over them, then add the per-group statistics.
(The `if not detections: return []` early return coincides with the general
path on the empty list.) -/
def group_detections {α : Type} [LinearOrderedField α] [DecidableEq α]
    (dist : α → α → α → α → α) (maxd : α)
    (detections : List (Detection α)) : List (FinalGroup α) :=
  ((sortByTimestamp detections).foldl (insertDetection dist maxd) []).map finalizeGroup

/-- Modelled from the spec: the streaming operating mode of the Damage
Aggregator ("events arrive one at a time, used live") is not present under
`src/`; it is the one-event-at-a-time iteration of the same insertion step
the batch loop performs. -/
def streamRun {α : Type} [LinearOrderedField α] [DecidableEq α]
    (dist : α → α → α → α → α) (maxd : α)
    (events : List (Detection α)) : List (Group α) :=
  events.foldl (insertDetection dist maxd) []

/-! ## `calculate_distance` (haversine, src/edge/group_damages.py lines 13-28) -/

open Real in
/-- `math.atan2 y x` (the two-argument arctangent, as in the C standard). -/
noncomputable def atan2 (y x : ℝ) : ℝ :=
  if 0 < x then arctan (y / x)
  else if x < 0 ∧ 0 ≤ y then arctan (y / x) + π
  else if x < 0 then arctan (y / x) - π
  else if 0 < y then π / 2
  else if y < 0 then -(π / 2)
  else 0

open Real in
/-- `calculate_distance(lat1, lon1, lat2, lon2)`: haversine distance in metres
on a sphere of radius 6371000 m; `math.radians x = x * π / 180`. -/
noncomputable def calculate_distance (lat1 lon1 lat2 lon2 : ℝ) : ℝ :=
  let R : ℝ := 6371000
  let phi1 := lat1 * π / 180
  let phi2 := lat2 * π / 180
  let delta_phi := (lat2 - lat1) * π / 180
  let delta_lambda := (lon2 - lon1) * π / 180
  let a := sin (delta_phi / 2) ^ 2 + cos phi1 * cos phi2 * sin (delta_lambda / 2) ^ 2
  let c := 2 * atan2 (Real.sqrt a) (Real.sqrt (1 - a))
  R * c

open Real in
lemma atan2_sin_cos {t : ℝ} (h1 : -(π / 2) < t) (h2 : t < π / 2) :
    atan2 |sin t| (cos t) = |t| := by
  have hcos : 0 < cos t := cos_pos_of_mem_Ioo ⟨h1, h2⟩
  have habs1 : -(π / 2) < |t| := lt_of_lt_of_le (neg_neg_iff_pos.mpr (by positivity)) (abs_nonneg t)
  have habs2 : |t| < π / 2 := abs_lt.mpr ⟨h1, h2⟩
  have hsin : |sin t| = sin |t| := by
    rcases le_or_lt 0 t with ht | ht
    · rw [abs_of_nonneg ht, abs_of_nonneg]
      exact sin_nonneg_of_nonneg_of_le_pi ht (le_trans h2.le (by linarith [pi_pos]))
    · have hp := pi_pos
      have hs : sin t ≤ 0 := by
        have h0 : 0 ≤ sin (-t) :=
          sin_nonneg_of_nonneg_of_le_pi (by linarith) (by linarith)
        rw [sin_neg] at h0; linarith
      rw [abs_of_nonpos hs, abs_of_neg ht, sin_neg]
  have hcosabs : cos t = cos |t| := (cos_abs t).symm
  rw [atan2, if_pos hcos, hsin, hcosabs, ← tan_eq_sin_div_cos, arctan_tan habs1 habs2]

open Real in
/-- Haversine distance between two points on the same meridian: for a latitude
difference below 120 degrees it is exactly the arc length
`6371000 * |Δlat| * π / 180`. -/
lemma calculate_distance_same_lon (lat1 lat2 L : ℝ) (h : |lat2 - lat1| < 120) :
    calculate_distance lat1 L lat2 L = 6371000 * (|lat2 - lat1| * π / 180) := by
  have hpi := pi_pos
  set t := (lat2 - lat1) * π / 180 / 2 with ht
  have htb : |t| < π / 2 := by
    rw [ht, abs_div, abs_div, abs_mul, abs_of_pos hpi, abs_of_pos (by norm_num : (0:ℝ) < 180),
      abs_of_pos (by norm_num : (0:ℝ) < 2)]
    rw [div_lt_iff (by norm_num), div_lt_iff (by norm_num)]
    nlinarith [abs_nonneg (lat2 - lat1), pi_pos]
  have htb1 : -(π / 2) < t := by
    have := abs_lt.mp htb; exact this.1
  have htb2 : t < π / 2 := (abs_lt.mp htb).2
  unfold calculate_distance
  simp only [sub_self, zero_mul, zero_div, sin_zero]
  have hz : (0:ℝ) ^ 2 = 0 := by norm_num
  rw [hz, mul_zero, add_zero]
  have hsq : Real.sqrt (sin t ^ 2) = |sin t| := sqrt_sq_eq_abs _
  have hone : 1 - sin t ^ 2 = cos t ^ 2 := by
    have := sin_sq_add_cos_sq t; linarith
  rw [show (lat2 - lat1) * π / 180 / 2 = t from ht.symm] at *
  rw [hsq, hone, sqrt_sq_eq_abs, abs_of_pos (cos_pos_of_mem_Ioo ⟨htb1, htb2⟩),
    atan2_sin_cos htb1 htb2]
  have : |t| = |lat2 - lat1| * π / 180 / 2 := by
    rw [ht, abs_div, abs_div, abs_mul, abs_of_pos hpi,
      abs_of_pos (by norm_num : (0:ℝ) < 180), abs_of_pos (by norm_num : (0:ℝ) < 2)]
  rw [this]; ring

/-- Latitude (in degrees) of the point `m` metres north of the equator along a
meridian, under the haversine model: scaffolding for concrete scenarios. -/
noncomputable def latOfMeters (m : ℝ) : ℝ := m * 180 / (Real.pi * 6371000)

open Real in
lemma calculate_distance_latOfMeters (a b L : ℝ) (h : |b - a| < 1000000) :
    calculate_distance (latOfMeters a) L (latOfMeters b) L = |b - a| := by
  have hpi := pi_pos
  have hsub : latOfMeters b - latOfMeters a = (b - a) * 180 / (π * 6371000) := by
    unfold latOfMeters; ring
  have habs : |latOfMeters b - latOfMeters a| = |b - a| * 180 / (π * 6371000) := by
    rw [hsub, abs_div, abs_mul, abs_of_pos (by norm_num : (0:ℝ) < 180),
      abs_of_pos (by positivity : (0:ℝ) < π * 6371000)]
  have hlt : |latOfMeters b - latOfMeters a| < 120 := by
    rw [habs, div_lt_iff (by positivity)]
    nlinarith [pi_gt_three, abs_nonneg (b - a)]
  rw [calculate_distance_same_lon _ _ _ hlt, habs]
  field_simp
  ring

/-! ## Clustering: evaluation lemmas and claim C1 -/

/-- The merge test of the clustering loop: centre within `maxd` AND same type. -/
def qualifies {α : Type} [LinearOrderedField α]
    (dist : α → α → α → α → α) (maxd : α) (d : Detection α) (g : Group α) : Prop :=
  dist (d.gps.latitude.getD 0) (d.gps.longitude.getD 0) g.centerLat g.centerLon ≤ maxd
    ∧ g.damage_type = d.clsD

/-- Attaching an event to a cluster: append to the member list, then recompute
the running centre (`_update_group_center`). -/
def attachTo {α : Type} [LinearOrderedField α] (g : Group α) (d : Detection α) : Group α :=
  update_group_center { g with detections := g.detections ++ [d] }

lemma update_group_center_detections {α : Type} [LinearOrderedField α] (g : Group α) :
    (update_group_center g).detections = g.detections := by
  unfold update_group_center
  dsimp only
  split <;> rfl

lemma attachDetection_cons_pos {α : Type} [LinearOrderedField α]
    {dist : α → α → α → α → α} {maxd lat lon : α} {dtype : String}
    {d : Detection α} {g : Group α} {gs : List (Group α)}
    (h : dist lat lon g.centerLat g.centerLon ≤ maxd ∧ g.damage_type = dtype) :
    attachDetection dist maxd lat lon dtype d (g :: gs)
      = some (update_group_center { g with detections := g.detections ++ [d] } :: gs) := by
  simp only [attachDetection, if_pos h]

lemma attachDetection_cons_neg {α : Type} [LinearOrderedField α]
    {dist : α → α → α → α → α} {maxd lat lon : α} {dtype : String}
    {d : Detection α} {g : Group α} {gs : List (Group α)}
    (h : ¬ (dist lat lon g.centerLat g.centerLon ≤ maxd ∧ g.damage_type = dtype)) :
    attachDetection dist maxd lat lon dtype d (g :: gs)
      = (attachDetection dist maxd lat lon dtype d gs).map (g :: ·) := by
  simp only [attachDetection, if_neg h]

lemma insertDetection_eval {α : Type} [LinearOrderedField α] [DecidableEq α]
    {dist : α → α → α → α → α} {maxd : α} {groups : List (Group α)}
    {d : Detection α} {lat lon : α}
    (hlat : d.gps.latitude = some lat) (hlon : d.gps.longitude = some lon)
    (hlat0 : lat ≠ 0) (hlon0 : lon ≠ 0) :
    insertDetection dist maxd groups d
      = match attachDetection dist maxd lat lon d.clsD d groups with
        | some gs => gs
        | none =>
          groups ++ [{ id := groups.length + 1, damage_type := d.clsD,
                       centerLat := lat, centerLon := lon,
                       detections := [d], created := d.timestamp }] := by
  have h1 : isFalsy (some lat) = false := by
    simp only [isFalsy]; exact decide_eq_false hlat0
  have h2 : isFalsy (some lon) = false := by
    simp only [isFalsy]; exact decide_eq_false hlon0
  simp only [insertDetection, hlat, hlon, h1, h2, Bool.or_self, Bool.false_eq_true,
    if_false, Option.getD_some]

lemma attachDetection_none {α : Type} [LinearOrderedField α]
    {dist : α → α → α → α → α} {maxd : α} {d : Detection α}
    (groups : List (Group α))
    (h : ∀ g ∈ groups, ¬ qualifies dist maxd d g)
    {lat lon : α} (hlat : d.gps.latitude = some lat) (hlon : d.gps.longitude = some lon) :
    attachDetection dist maxd lat lon d.clsD d groups = none := by
  induction groups with
  | nil => rfl
  | cons g gs ih =>
    have hg : ¬ (dist lat lon g.centerLat g.centerLon ≤ maxd ∧ g.damage_type = d.clsD) := by
      intro hc
      exact h g (List.mem_cons_self g gs)
        (by rw [qualifies, hlat, hlon]; exact hc)
    rw [attachDetection_cons_neg hg, ih (fun g' hg' => h g' (List.mem_cons_of_mem _ hg'))]
    rfl

/-- Claim C1 (amended): when at least one existing cluster of the same damage
type has its centroid within `cluster_radius_m` of the event's position, the
event is attached to the FIRST qualifying cluster in cluster-creation order
(the loop `break`s on the first hit), not to the nearest one; when no cluster
qualifies, a new cluster containing only this event is created. -/
theorem insertDetection_first_qualifying {α : Type} [LinearOrderedField α] [DecidableEq α]
    (dist : α → α → α → α → α) (maxd : α) (d : Detection α) (lat lon : α)
    (hlat : d.gps.latitude = some lat) (hlon : d.gps.longitude = some lon)
    (hlat0 : lat ≠ 0) (hlon0 : lon ≠ 0) :
    (∀ gs₁ g gs₂, (∀ g' ∈ gs₁, ¬ qualifies dist maxd d g') → qualifies dist maxd d g →
        insertDetection dist maxd (gs₁ ++ g :: gs₂) d = gs₁ ++ attachTo g d :: gs₂)
  ∧ (∀ groups : List (Group α), (∀ g ∈ groups, ¬ qualifies dist maxd d g) →
        insertDetection dist maxd groups d
          = groups ++ [{ id := groups.length + 1, damage_type := d.clsD,
                         centerLat := lat, centerLon := lon,
                         detections := [d], created := d.timestamp }]) := by
  constructor
  · intro gs₁ g gs₂ hnone hq
    rw [insertDetection_eval hlat hlon hlat0 hlon0]
    have hatt : attachDetection dist maxd lat lon d.clsD d (gs₁ ++ g :: gs₂)
        = some (gs₁ ++ attachTo g d :: gs₂) := by
      induction gs₁ with
      | nil =>
        have hg : dist lat lon g.centerLat g.centerLon ≤ maxd ∧ g.damage_type = d.clsD := by
          have := hq; rw [qualifies, hlat, hlon] at this; simpa using this
        have hpos : attachDetection dist maxd lat lon d.clsD d (g :: gs₂)
            = some (update_group_center { g with detections := g.detections ++ [d] } :: gs₂) :=
          attachDetection_cons_pos hg
        simpa [attachTo] using hpos
      | cons g' gs' ih =>
        have hg' : ¬ (dist lat lon g'.centerLat g'.centerLon ≤ maxd
            ∧ g'.damage_type = d.clsD) := by
          intro hc
          exact hnone g' (List.mem_cons_self g' gs')
            (by rw [qualifies, hlat, hlon]; exact hc)
        rw [List.cons_append, attachDetection_cons_neg hg',
          ih (fun g'' hg'' => hnone g'' (List.mem_cons_of_mem _ hg''))]
        rfl
    rw [hatt]
  · intro groups hnone
    rw [insertDetection_eval hlat hlon hlat0 hlon0,
      attachDetection_none groups hnone hlat hlon]

/-- A simple concrete rational metric used in witness instantiations. -/
def qdist (lat lon lat' lon' : ℚ) : ℚ := |lat - lat'| + |lon - lon'|

/-- Witness for `insertDetection_first_qualifying` at a concrete rational
input: two existing clusters both qualify, the event lands in the first. -/
theorem insertDetection_first_qualifying_witness :
    insertDetection qdist 1
        [⟨1, "pothole", 10, 20, [], 5⟩, ⟨2, "pothole", 10, 19, [], 6⟩]
        ⟨7, ⟨some 10, some 20⟩, some "pothole", some (9/10)⟩
      = [attachTo ⟨1, "pothole", 10, 20, [], 5⟩ ⟨7, ⟨some 10, some 20⟩, some "pothole", some (9/10)⟩,
         ⟨2, "pothole", 10, 19, [], 6⟩] := by
  have h := (insertDetection_first_qualifying qdist 1
    ⟨7, ⟨some 10, some 20⟩, some "pothole", some (9/10)⟩ 10 20 rfl rfl
    (by norm_num) (by norm_num)).1
  have := h [] ⟨1, "pothole", 10, 20, [], 5⟩ [⟨2, "pothole", 10, 19, [], 6⟩]
    (by intro g hg; cases hg)
    ⟨by simp only [Option.getD_some, qdist]; norm_num, rfl⟩
  simpa using this

/-- The three events of the C1 counterexample scenario, all of damage type
`pothole`, on one meridian (longitude 7°), with strictly increasing
timestamps.  Positions in metres north along the meridian: 100, 101.5, 100.9. -/
noncomputable def cexE1 : Detection ℝ :=
  ⟨1, ⟨some (latOfMeters 100), some 7⟩, some "pothole", some 0.9⟩

noncomputable def cexE2 : Detection ℝ :=
  ⟨2, ⟨some (latOfMeters 101.5), some 7⟩, some "pothole", some 0.8⟩

noncomputable def cexE3 : Detection ℝ :=
  ⟨3, ⟨some (latOfMeters 100.9), some 7⟩, some "pothole", some 0.7⟩

lemma finalizeGroup_detections {α : Type} [LinearOrderedField α] (g : Group α) :
    (finalizeGroup g).detections = sortByTimestamp g.detections := rfl

/-- Claim C1 is FALSE as stated on the code: running
`DamageGrouper.group_detections` (with the real haversine
`calculate_distance` and the default radius `max_distance = 1.0`) on the
three pothole events at 100 m, 101.5 m and 100.9 m north along the meridian
of longitude 7°, the third event is attached to the FIRST cluster (centre
100 m, distance 0.9 m) even though the second cluster (centre 101.5 m,
distance 0.6 m) also qualifies (0.6 ≤ 1) and is strictly nearer (0.6 < 0.9).
The claim demands attachment to the nearest qualifying cluster's member list;
the output below shows the event in the farther cluster's member list. -/
theorem grouping_attaches_first_not_nearest_cex :
    ((group_detections calculate_distance 1 [cexE1, cexE2, cexE3]).map
        fun g => g.detections) = [[cexE1, cexE3], [cexE2]]
  ∧ calculate_distance (latOfMeters 100.9) 7 (latOfMeters 101.5) 7 ≤ 1
  ∧ calculate_distance (latOfMeters 100.9) 7 (latOfMeters 101.5) 7
      < calculate_distance (latOfMeters 100.9) 7 (latOfMeters 100) 7 := by
  have h100 : latOfMeters 100 ≠ 0 := by unfold latOfMeters; positivity
  have h1015 : latOfMeters 101.5 ≠ 0 := by unfold latOfMeters; positivity
  have h1009 : latOfMeters 100.9 ≠ 0 := by unfold latOfMeters; positivity
  have h7 : (7 : ℝ) ≠ 0 := by norm_num
  have habs12 : |(100 : ℝ) - 101.5| = 1.5 := by
    rw [show (100 : ℝ) - 101.5 = -1.5 by norm_num, abs_neg, abs_of_pos]
    norm_num
  have habs31 : |(100 : ℝ) - 100.9| = 0.9 := by
    rw [show (100 : ℝ) - 100.9 = -0.9 by norm_num, abs_neg, abs_of_pos]
    norm_num
  have habs32 : |(101.5 : ℝ) - 100.9| = 0.6 := by
    rw [show (101.5 : ℝ) - 100.9 = 0.6 by norm_num, abs_of_pos]
    norm_num
  have hd12 : calculate_distance (latOfMeters 101.5) 7 (latOfMeters 100) 7 = 1.5 := by
    rw [calculate_distance_latOfMeters 101.5 100 7 (by rw [habs12]; norm_num), habs12]
  have hd31 : calculate_distance (latOfMeters 100.9) 7 (latOfMeters 100) 7 = 0.9 := by
    rw [calculate_distance_latOfMeters 100.9 100 7 (by rw [habs31]; norm_num), habs31]
  have hd32 : calculate_distance (latOfMeters 100.9) 7 (latOfMeters 101.5) 7 = 0.6 := by
    rw [calculate_distance_latOfMeters 100.9 101.5 7 (by rw [habs32]; norm_num), habs32]
  have s1 : insertDetection calculate_distance 1 [] cexE1
      = [⟨1, "pothole", latOfMeters 100, 7, [cexE1], 1⟩] := by
    rw [insertDetection_eval rfl rfl h100 h7]
    rfl
  have s2 : insertDetection calculate_distance 1
        [⟨1, "pothole", latOfMeters 100, 7, [cexE1], 1⟩] cexE2
      = [⟨1, "pothole", latOfMeters 100, 7, [cexE1], 1⟩,
         ⟨2, "pothole", latOfMeters 101.5, 7, [cexE2], 2⟩] := by
    rw [insertDetection_eval rfl rfl h1015 h7]
    rw [attachDetection_cons_neg (by
      intro hc
      have h := hc.1
      rw [hd12] at h
      norm_num at h)]
    rfl
  have s3 : insertDetection calculate_distance 1
        [⟨1, "pothole", latOfMeters 100, 7, [cexE1], 1⟩,
         ⟨2, "pothole", latOfMeters 101.5, 7, [cexE2], 2⟩] cexE3
      = [update_group_center ⟨1, "pothole", latOfMeters 100, 7, [cexE1, cexE3], 1⟩,
         ⟨2, "pothole", latOfMeters 101.5, 7, [cexE2], 2⟩] := by
    rw [insertDetection_eval rfl rfl h1009 h7]
    have hpos : attachDetection calculate_distance 1 (latOfMeters 100.9) 7 cexE3.clsD cexE3
        [⟨1, "pothole", latOfMeters 100, 7, [cexE1], 1⟩,
         ⟨2, "pothole", latOfMeters 101.5, 7, [cexE2], 2⟩]
        = some (update_group_center
            { (⟨1, "pothole", latOfMeters 100, 7, [cexE1], 1⟩ : Group ℝ) with
                detections := [cexE1] ++ [cexE3] }
            :: [⟨2, "pothole", latOfMeters 101.5, 7, [cexE2], 2⟩]) :=
      attachDetection_cons_pos ⟨by rw [hd31]; norm_num, rfl⟩
    rw [hpos]
    rfl
  refine ⟨?_, by rw [hd32]; norm_num, by rw [hd32, hd31]; norm_num⟩
  unfold group_detections
  rw [show sortByTimestamp [cexE1, cexE2, cexE3] = [cexE1, cexE2, cexE3] from rfl]
  simp only [List.foldl_cons, List.foldl_nil]
  rw [s1, s2, s3]
  simp only [List.map_cons, List.map_nil, finalizeGroup_detections,
    update_group_center_detections]
  rfl

/-! ## Claim C5: batch = streaming on the time-sorted sequence; order invariance -/

instance tsKeyLeTotal {α : Type} : IsTotal (ℕ × Detection α) tsKeyLe := by
  constructor
  intro a b
  rcases lt_trichotomy a.2.timestamp b.2.timestamp with h | h | h
  · exact Or.inl (Or.inl h)
  · rcases le_total a.1 b.1 with h' | h'
    · exact Or.inl (Or.inr ⟨h, h'⟩)
    · exact Or.inr (Or.inr ⟨h.symm, h'⟩)
  · exact Or.inr (Or.inl h)

instance tsKeyLeTrans {α : Type} : IsTrans (ℕ × Detection α) tsKeyLe := by
  constructor
  intro a b c hab hbc
  rcases hab with h1 | ⟨h1, h1i⟩ <;> rcases hbc with h2 | ⟨h2, h2i⟩
  · exact Or.inl (h1.trans h2)
  · exact Or.inl (h2 ▸ h1)
  · exact Or.inl (h1 ▸ h2)
  · exact Or.inr ⟨h1.trans h2, h1i.trans h2i⟩

lemma sortByTimestamp_perm {α : Type} (l : List (Detection α)) :
    (sortByTimestamp l).Perm l := by
  unfold sortByTimestamp
  have h := (List.perm_insertionSort tsKeyLe l.enum).map Prod.snd
  rwa [List.enum_map_snd] at h

lemma sortByTimestamp_sorted_lt {α : Type} (l : List (Detection α))
    (hnd : (l.map Detection.timestamp).Nodup) :
    (sortByTimestamp l).Pairwise fun a b => a.timestamp < b.timestamp := by
  have hsorted : (List.insertionSort tsKeyLe l.enum).Pairwise tsKeyLe :=
    List.sorted_insertionSort tsKeyLe l.enum
  have hndmap : ((sortByTimestamp l).map Detection.timestamp).Nodup :=
    (((sortByTimestamp_perm l).map Detection.timestamp).nodup_iff).mpr hnd
  have hne : (sortByTimestamp l).Pairwise fun a b => a.timestamp ≠ b.timestamp :=
    List.pairwise_map.mp hndmap
  have hle : (sortByTimestamp l).Pairwise
      fun a b => a.timestamp < b.timestamp ∨ (a.timestamp = b.timestamp) := by
    unfold sortByTimestamp
    refine List.pairwise_map.mpr ?_
    exact hsorted.imp fun h => by
      rcases h with h | ⟨h, _⟩
      · exact Or.inl h
      · exact Or.inr h
  exact (hle.and hne).imp fun h => by
    rcases h with ⟨h1 | h1, h2⟩
    · exact h1
    · exact absurd h1 h2

lemma sortByTimestamp_eq_of_perm {α : Type} {l₁ l₂ : List (Detection α)}
    (hperm : l₁.Perm l₂) (hnd : (l₁.map Detection.timestamp).Nodup) :
    sortByTimestamp l₁ = sortByTimestamp l₂ := by
  have hp : (sortByTimestamp l₁).Perm (sortByTimestamp l₂) :=
    ((sortByTimestamp_perm l₁).trans hperm).trans (sortByTimestamp_perm l₂).symm
  have hnd₂ : (l₂.map Detection.timestamp).Nodup :=
    ((hperm.map Detection.timestamp).nodup_iff).mp hnd
  have hs₁ := sortByTimestamp_sorted_lt l₁ hnd
  have hs₂ := sortByTimestamp_sorted_lt l₂ hnd₂
  exact @List.eq_of_perm_of_sorted (Detection α) (fun a b => a.timestamp < b.timestamp)
    ⟨fun a b h1 h2 => absurd (h1.trans h2) (lt_irrefl _)⟩ _ _ hp hs₁ hs₂

/-- Claim C5: `group_detections` first time-sorts the events (stably: ties
between identical timestamps are broken by the original index) and then
produces exactly the clusters the one-at-a-time streaming insertion
(`streamRun`) produces on that sorted sequence; consequently, for any two
arrival orders of the same events with pairwise distinct timestamps the
resulting clusters are identical. -/
theorem group_detections_batch_stream_order_invariant {α : Type}
    [LinearOrderedField α] [DecidableEq α]
    (dist : α → α → α → α → α) (maxd : α) (l₁ l₂ : List (Detection α))
    (hperm : l₁.Perm l₂) (hnd : (l₁.map Detection.timestamp).Nodup) :
    group_detections dist maxd l₁
        = (streamRun dist maxd (sortByTimestamp l₁)).map finalizeGroup
  ∧ group_detections dist maxd l₁ = group_detections dist maxd l₂ := by
  constructor
  · rfl
  · unfold group_detections
    rw [sortByTimestamp_eq_of_perm hperm hnd]

/-- Witness for `group_detections_batch_stream_order_invariant`: two arrival
orders of the same two rational-coordinate events. -/
theorem group_detections_order_invariant_witness :
    group_detections qdist 1
        [⟨2, ⟨some 1, some 1⟩, some "pothole", some (1/2)⟩,
         ⟨1, ⟨some 5, some 5⟩, some "crack", some (3/4)⟩]
      = (streamRun qdist 1
          (sortByTimestamp
            [⟨2, ⟨some 1, some 1⟩, some "pothole", some (1/2)⟩,
             ⟨1, ⟨some 5, some 5⟩, some "crack", some (3/4)⟩])).map finalizeGroup
  ∧ group_detections qdist 1
        [⟨2, ⟨some 1, some 1⟩, some "pothole", some (1/2)⟩,
         ⟨1, ⟨some 5, some 5⟩, some "crack", some (3/4)⟩]
      = group_detections qdist 1
        [⟨1, ⟨some 5, some 5⟩, some "crack", some (3/4)⟩,
         ⟨2, ⟨some 1, some 1⟩, some "pothole", some (1/2)⟩] :=
  group_detections_batch_stream_order_invariant qdist 1 _ _
    (List.Perm.swap _ _ _) (by decide)

/-! ## Claim C10: Python-falsy gps coordinates are silently excluded -/

lemma insertDetection_falsy {α : Type} [LinearOrderedField α] [DecidableEq α]
    {dist : α → α → α → α → α} {maxd : α} {gs : List (Group α)} {d : Detection α}
    (h : (isFalsy d.gps.latitude || isFalsy d.gps.longitude) = true) :
    insertDetection dist maxd gs d = gs := by
  simp only [insertDetection, h, if_true]

lemma attachDetection_mem {α : Type} [LinearOrderedField α]
    {dist : α → α → α → α → α} {maxd lat lon : α} {dtype : String} {d : Detection α} :
    ∀ {gs gs' : List (Group α)}, attachDetection dist maxd lat lon dtype d gs = some gs' →
    ∀ g' ∈ gs', ∀ x ∈ g'.detections, (∃ g ∈ gs, x ∈ g.detections) ∨ x = d := by
  intro gs
  induction gs with
  | nil => intro gs' h; cases h
  | cons g rest ih =>
    intro gs' h g' hg' x hx
    by_cases hq : dist lat lon g.centerLat g.centerLon ≤ maxd ∧ g.damage_type = dtype
    · rw [attachDetection_cons_pos hq] at h
      cases h
      rcases List.mem_cons.mp hg' with hg'' | hg''
      · subst hg''
        rw [update_group_center_detections] at hx
        rcases List.mem_append.mp hx with hx' | hx'
        · exact Or.inl ⟨g, List.mem_cons_self g rest, hx'⟩
        · exact Or.inr (List.mem_singleton.mp hx')
      · exact Or.inl ⟨g', List.mem_cons_of_mem _ hg'', hx⟩
    · rw [attachDetection_cons_neg hq] at h
      cases hrec : attachDetection dist maxd lat lon dtype d rest with
      | none => rw [hrec] at h; cases h
      | some gs'' =>
        rw [hrec] at h
        cases h
        rcases List.mem_cons.mp hg' with hg'' | hg''
        · subst hg''
          exact Or.inl ⟨g', List.mem_cons_self g' rest, hx⟩
        · rcases ih hrec g' hg'' x hx with ⟨g₀, hg₀, hx₀⟩ | hxd
          · exact Or.inl ⟨g₀, List.mem_cons_of_mem _ hg₀, hx₀⟩
          · exact Or.inr hxd

lemma foldl_insert_members_not_falsy {α : Type} [LinearOrderedField α] [DecidableEq α]
    (dist : α → α → α → α → α) (maxd : α) :
    ∀ (l : List (Detection α)) (gs₀ : List (Group α)),
    (∀ g ∈ gs₀, ∀ x ∈ g.detections,
        (isFalsy x.gps.latitude || isFalsy x.gps.longitude) = false) →
    ∀ g ∈ l.foldl (insertDetection dist maxd) gs₀, ∀ x ∈ g.detections,
        (isFalsy x.gps.latitude || isFalsy x.gps.longitude) = false := by
  intro l
  induction l with
  | nil => intro gs₀ h; simpa using h
  | cons d rest ih =>
    intro gs₀ h
    rw [List.foldl_cons]
    apply ih
    by_cases hf : (isFalsy d.gps.latitude || isFalsy d.gps.longitude) = true
    · rw [insertDetection_falsy hf]; exact h
    · have hfd : (isFalsy d.gps.latitude || isFalsy d.gps.longitude) = false :=
        Bool.eq_false_iff.mpr hf
      obtain ⟨la, hla⟩ : ∃ la, d.gps.latitude = some la := by
        cases hl : d.gps.latitude with
        | none => rw [hl] at hfd; simp [isFalsy] at hfd
        | some x => exact ⟨x, rfl⟩
      obtain ⟨lo, hlo⟩ : ∃ lo, d.gps.longitude = some lo := by
        cases hl : d.gps.longitude with
        | none => rw [hl] at hfd; simp [isFalsy] at hfd
        | some x => exact ⟨x, rfl⟩
      have hla0 : la ≠ 0 := by
        intro h0
        rw [hla, h0] at hfd
        simp [isFalsy] at hfd
      have hlo0 : lo ≠ 0 := by
        intro h0
        rw [hlo, h0] at hfd
        simp [isFalsy] at hfd
      rw [insertDetection_eval hla hlo hla0 hlo0]
      cases hatt : attachDetection dist maxd la lo d.clsD d gs₀ with
      | some gs' =>
        intro g hg x hx
        rcases attachDetection_mem hatt g hg x hx with ⟨g₀, hg₀, hx₀⟩ | hxd
        · exact h g₀ hg₀ x hx₀
        · subst hxd; exact hfd
      | none =>
        intro g hg x hx
        rcases List.mem_append.mp hg with hg' | hg'
        · exact h g hg' x hx
        · rw [List.mem_singleton.mp hg'] at hx
          have hxd : x = d := by simpa using hx
          rw [hxd]
          exact hfd

/-- Claim C10: `group_detections` silently excludes any detection whose gps
latitude or longitude is absent or equal to `0` (the Python falsy test
`not gps.get('latitude')`): such an event appears in the member list of no
returned cluster — even though latitude 0 (the equator) and longitude 0 (the
prime meridian) are valid coordinates.  No error is raised (the embedded
function is total). -/
theorem falsy_gps_detection_in_no_cluster {α : Type} [LinearOrderedField α] [DecidableEq α]
    (dist : α → α → α → α → α) (maxd : α) (dets : List (Detection α)) (d : Detection α)
    (_hd : d ∈ dets)
    (hfalsy : (isFalsy d.gps.latitude || isFalsy d.gps.longitude) = true) :
    ∀ g ∈ group_detections dist maxd dets, d ∉ g.detections := by
  intro g hg hmem
  unfold group_detections at hg
  rcases List.mem_map.mp hg with ⟨g₀, hg₀, hfin⟩
  have hmem₀ : d ∈ g₀.detections := by
    rw [← hfin, finalizeGroup_detections] at hmem
    exact (sortByTimestamp_perm g₀.detections).mem_iff.mp hmem
  have := foldl_insert_members_not_falsy dist maxd (sortByTimestamp dets) []
    (by intro g hg'; cases hg') g₀ hg₀ d hmem₀
  rw [hfalsy] at this
  cases this

/-- Witness for `falsy_gps_detection_in_no_cluster`: an event on the equator
(latitude exactly 0) is excluded from all clusters. -/
theorem falsy_gps_detection_in_no_cluster_witness :
    ((group_detections qdist 1
        [⟨1, ⟨some 5, some 5⟩, some "pothole", some 1⟩,
         ⟨2, ⟨some 0, some 5⟩, some "pothole", some 1⟩]).all
      fun g => !(g.detections.contains
        (⟨2, ⟨some 0, some 5⟩, some "pothole", some 1⟩ : Detection ℚ))) = true := by
  have h := falsy_gps_detection_in_no_cluster qdist 1
    [⟨1, ⟨some 5, some 5⟩, some "pothole", some 1⟩,
     ⟨2, ⟨some 0, some 5⟩, some "pothole", some 1⟩]
    ⟨2, ⟨some 0, some 5⟩, some "pothole", some 1⟩ (by decide) (by decide)
  rw [List.all_eq_true]
  intro g hg
  simpa using h g hg

/-! ## Severity classifiers (claims C6 and C8) -/

/-- `AutoLiveSystem.calculate_severity` (src/edge/auto_live_system.py lines
479-493).  `rules` models `config['damage_detection']['severity_rules']`; a
type without an entry falls back to thresholds `{'high': 0.85,
'medium': 0.70}` (the `.get` defaults on the threshold keys coincide with
this fallback, so the pair is modelled as present). -/
def calculate_severity (rules : String → Option (ℚ × ℚ))
    (damage_type : String) (confidence : ℚ) : String :=
  let thresholds := (rules damage_type).getD (85/100, 70/100)
  if thresholds.1 ≤ confidence then "high"
  else if thresholds.2 ≤ confidence then "medium"
  else "low"

/-- Python `str.lower()` as a character-wise map (the damage-type strings in
this repository are ASCII, where the two agree). -/
def lowerStr (s : String) : String := ⟨s.data.map Char.toLower⟩

/-- `DamageGrouper._calculate_severity` (src/edge/group_damages.py lines
213-236), as a pure function of the group fields it reads:
`(damage_type, best_confidence, image_count)`.  `image_factor` is
`min(image_count / 3, 1.0)`.  Note the final `else` arm: any type other than
`pothole` and `crack` yields `low` unconditionally. -/
def grouper_calculate_severity (damage_type : String)
    (best_confidence : ℚ) (image_count : ℕ) : String :=
  let t := lowerStr damage_type
  let image_factor : ℚ := min ((image_count : ℚ) / 3) 1
  if t = "pothole" then
    if 8/10 < best_confidence ∨ 7/10 < image_factor then "high"
    else if 6/10 < best_confidence then "medium"
    else "low"
  else if t = "crack" then
    if 75/100 < best_confidence ∧ 5/10 < image_factor then "medium"
    else "low"
  else "low"

/-- Claim C6 is FALSE as stated on `DamageGrouper._calculate_severity`: for
the damage type `unknown` (which has no explicit table entry) at best
confidence 0.9 ≥ 0.85 the claim demands `high`, but the function returns
`low` (its final `else` arm ignores confidence entirely). -/
theorem grouper_severity_no_default_rule_cex :
    grouper_calculate_severity "unknown" (9/10) 1 = "low"
  ∧ (85/100 : ℚ) ≤ 9/10
  ∧ "low" ≠ "high" :=
  ⟨rfl, by norm_num, by decide⟩

/-- Claim C6 (amended): the ≥0.85 / ≥0.70 default rule holds for
`AutoLiveSystem.calculate_severity` when the damage type has no
`severity_rules` entry; `DamageGrouper._calculate_severity`, however, has no
such default — every type other than `pothole` and `crack`
(case-insensitively) yields `low` regardless of confidence. -/
theorem severity_default_rule_split :
    (∀ (rules : String → Option (ℚ × ℚ)) (t : String) (c : ℚ), rules t = none →
        calculate_severity rules t c
          = if 85/100 ≤ c then "high" else if 70/100 ≤ c then "medium" else "low")
  ∧ (∀ (t : String) (c : ℚ) (n : ℕ),
        lowerStr t ≠ "pothole" → lowerStr t ≠ "crack" →
        grouper_calculate_severity t c n = "low") := by
  constructor
  · intro rules t c h
    unfold calculate_severity
    rw [h]
    rfl
  · intro t c n h1 h2
    unfold grouper_calculate_severity
    dsimp only
    rw [if_neg h1, if_neg h2]

/-- Witness for `severity_default_rule_split` at concrete inputs. -/
theorem severity_default_rule_split_witness :
    calculate_severity (fun _ => none) "gravel" 1
        = (if (85:ℚ)/100 ≤ 1 then "high" else if (70:ℚ)/100 ≤ 1 then "medium" else "low")
  ∧ grouper_calculate_severity "surface_damage" 1 2 = "low" :=
  ⟨severity_default_rule_split.1 (fun _ => none) "gravel" 1 rfl,
   severity_default_rule_split.2 "surface_damage" 1 2 (by decide) (by decide)⟩

/-- Rank of a severity string under the order low < medium < high. -/
def sevRank (s : String) : ℕ :=
  if s = "high" then 2 else if s = "medium" then 1 else 0

/-- Claim C8: for a fixed damage type (and fixed member count / severity
table), both severity classifiers are non-decreasing in confidence, with
severities ordered low < medium < high. -/
theorem severity_monotone_in_confidence
    (rules : String → Option (ℚ × ℚ)) (t : String) (n : ℕ) (c₁ c₂ : ℚ)
    (h : c₁ ≤ c₂) :
    sevRank (calculate_severity rules t c₁) ≤ sevRank (calculate_severity rules t c₂)
  ∧ sevRank (grouper_calculate_severity t c₁ n)
      ≤ sevRank (grouper_calculate_severity t c₂ n) := by
  constructor
  · unfold calculate_severity
    dsimp only
    obtain ⟨hi, me⟩ : ℚ × ℚ := (rules t).getD (85/100, 70/100)
    by_cases hA1 : hi ≤ c₁
    · rw [if_pos hA1, if_pos (le_trans hA1 h)]
    · rw [if_neg hA1]
      by_cases hB1 : me ≤ c₁
      · rw [if_pos hB1]
        by_cases hA2 : hi ≤ c₂
        · rw [if_pos hA2]; decide
        · rw [if_neg hA2, if_pos (le_trans hB1 h)]
      · rw [if_neg hB1]
        exact Nat.zero_le _
  · unfold grouper_calculate_severity
    dsimp only
    by_cases hp : lowerStr t = "pothole"
    · rw [if_pos hp, if_pos hp]
      by_cases h1 : 8/10 < c₁ ∨ 7/10 < min ((n : ℚ) / 3) 1
      · rw [if_pos h1, if_pos (h1.imp (fun hx => lt_of_lt_of_le hx h) id)]
      · rw [if_neg h1]
        by_cases h3 : 6/10 < c₁
        · rw [if_pos h3]
          by_cases h5 : 8/10 < c₂ ∨ 7/10 < min ((n : ℚ) / 3) 1
          · rw [if_pos h5]; decide
          · rw [if_neg h5, if_pos (lt_of_lt_of_le h3 h)]
        · rw [if_neg h3]
          exact Nat.zero_le _
    · rw [if_neg hp, if_neg hp]
      by_cases hc : lowerStr t = "crack"
      · rw [if_pos hc, if_pos hc]
        by_cases h1 : 75/100 < c₁ ∧ 5/10 < min ((n : ℚ) / 3) 1
        · rw [if_pos h1, if_pos ⟨lt_of_lt_of_le h1.1 h, h1.2⟩]
        · rw [if_neg h1]
          exact Nat.zero_le _
      · rw [if_neg hc, if_neg hc]

/-- Witness for `severity_monotone_in_confidence` at a concrete input pair. -/
theorem severity_monotone_in_confidence_witness :
    sevRank (calculate_severity (fun _ => none) "pothole" 0)
        ≤ sevRank (calculate_severity (fun _ => none) "pothole" 1)
  ∧ sevRank (grouper_calculate_severity "pothole" 0 1)
      ≤ sevRank (grouper_calculate_severity "pothole" 1 1) :=
  severity_monotone_in_confidence (fun _ => none) "pothole" 1 0 1 (by norm_num)

/-! ## Surface smoother vote (claim C4) -/

/-- Python's `max(iterable, key=k)` on a nonempty iterable, given as head and
tail: it keeps the current best and replaces it only when a later element's
key is STRICTLY greater, so it returns the first element attaining the
maximal key in iteration order. -/
def pyMaxBy (key : String → ℕ) : String → List String → String
  | best, [] => best
  | best, x :: xs => if key best < key x then pyMaxBy key x xs else pyMaxBy key best xs

/-- The majority-vote line of `AutoLiveSystem.process_surface` (line 391):
`surface_type = max(set(types), key=types.count)` where `types` is the list
of labels in the smoothing window (the vote runs when the window holds at
least 2 samples).  Python iterates over `set(types)` in an UNSPECIFIED order
(hash-based; randomised across runs for strings), so the iteration order is
an explicit parameter; the theorems constrain it to be a permutation of the
window's distinct labels. -/
def voteWithSetOrder (types : List String) : List String → Option String
  | [] => none
  | x :: xs => some (pyMaxBy (fun s => types.count s) x xs)

/-- The distinct labels of the window in earliest-appearance order (the
tie-break order claimed by the spec; `set` iteration is not guaranteed to
follow it). -/
def distinctFirst : List String → List String
  | [] => []
  | x :: xs => x :: (distinctFirst xs).filter (fun s => s != x)

lemma mem_distinctFirst {s : String} : ∀ {l : List String},
    s ∈ distinctFirst l ↔ s ∈ l := by
  intro l
  induction l with
  | nil => simp [distinctFirst]
  | cons x xs ih =>
    simp only [distinctFirst, List.mem_cons, List.mem_filter, bne_iff_ne]
    constructor
    · rintro (h | ⟨h, _⟩)
      · exact Or.inl h
      · exact Or.inr (ih.mp h)
    · rintro (h | h)
      · exact Or.inl h
      · by_cases hx : s = x
        · exact Or.inl hx
        · exact Or.inr ⟨ih.mpr h, hx⟩

lemma pyMaxBy_mem (key : String → ℕ) :
    ∀ (b : String) (l : List String), pyMaxBy key b l = b ∨ pyMaxBy key b l ∈ l := by
  intro b l
  induction l generalizing b with
  | nil => exact Or.inl rfl
  | cons x xs ih =>
    unfold pyMaxBy
    by_cases h : key b < key x
    · rw [if_pos h]
      rcases ih x with h' | h'
      · exact Or.inr (by rw [h']; exact List.mem_cons_self x xs)
      · exact Or.inr (List.mem_cons_of_mem _ h')
    · rw [if_neg h]
      rcases ih b with h' | h'
      · exact Or.inl h'
      · exact Or.inr (List.mem_cons_of_mem _ h')

lemma pyMaxBy_ge (key : String → ℕ) :
    ∀ (b : String) (l : List String),
      key b ≤ key (pyMaxBy key b l) ∧ ∀ x ∈ l, key x ≤ key (pyMaxBy key b l) := by
  intro b l
  induction l generalizing b with
  | nil => exact ⟨le_refl _, by intro x hx; cases hx⟩
  | cons x xs ih =>
    unfold pyMaxBy
    by_cases h : key b < key x
    · rw [if_pos h]
      refine ⟨le_trans h.le (ih x).1, ?_⟩
      intro y hy
      rcases List.mem_cons.mp hy with hy' | hy'
      · exact hy' ▸ (ih x).1
      · exact (ih x).2 y hy'
    · rw [if_neg h]
      refine ⟨(ih b).1, ?_⟩
      intro y hy
      rcases List.mem_cons.mp hy with hy' | hy'
      · exact hy' ▸ le_trans (not_lt.mp h) (ih b).1
      · exact (ih b).2 y hy'

/-- Claim C4 (amended): for every admissible `set` iteration order (a
permutation of the window's distinct labels) the vote is some label of the
window attaining the maximal occurrence count, and when one label is the
STRICT maximiser the vote equals it for every admissible order (so identical
windows give identical votes whenever there is no count tie).  Under a count
tie the result is whichever tied label comes first in the set order — not
necessarily the earliest-appearing one, and not a function of the window
alone. -/
theorem vote_of_set_order (types order : List String)
    (hperm : order.Perm (distinctFirst types)) (hne : types ≠ []) :
    (∃ w, voteWithSetOrder types order = some w ∧ w ∈ types
        ∧ ∀ s ∈ types, types.count s ≤ types.count w)
  ∧ (∀ w, w ∈ types → (∀ s ∈ types, s ≠ w → types.count s < types.count w) →
        voteWithSetOrder types order = some w) := by
  obtain ⟨o, os, rfl⟩ : ∃ o os, order = o :: os := by
    cases horder : order with
    | nil =>
      exfalso
      rw [horder] at hperm
      obtain ⟨t, ts, rfl⟩ : ∃ t ts, types = t :: ts := by
        cases types with
        | nil => exact absurd rfl hne
        | cons t ts => exact ⟨t, ts, rfl⟩
      have : (t : String) ∈ ([] : List String) := by
        refine hperm.mem_iff.mpr ?_
        exact mem_distinctFirst.mpr (List.mem_cons_self t ts)
      cases this
    | cons o os => exact ⟨o, os, rfl⟩
  have hmax :
      ∃ w, voteWithSetOrder types (o :: os) = some w ∧ w ∈ types
        ∧ ∀ s ∈ types, types.count s ≤ types.count w := by
    refine ⟨pyMaxBy (fun s => types.count s) o os, rfl, ?_, ?_⟩
    · rcases pyMaxBy_mem (fun s => types.count s) o os with h | h
      · have ho : o ∈ distinctFirst types :=
          hperm.mem_iff.mp (List.mem_cons_self o os)
        rw [h]
        exact mem_distinctFirst.mp ho
      · have : pyMaxBy (fun s => types.count s) o os ∈ distinctFirst types :=
          hperm.mem_iff.mp (List.mem_cons_of_mem _ h)
        exact mem_distinctFirst.mp this
    · intro s hs
      have hs' : s ∈ o :: os :=
        hperm.mem_iff.mpr (mem_distinctFirst.mpr hs)
      rcases List.mem_cons.mp hs' with h | h
      · exact h ▸ (pyMaxBy_ge (fun s => types.count s) o os).1
      · exact (pyMaxBy_ge (fun s => types.count s) o os).2 s h
  refine ⟨hmax, ?_⟩
  intro w hw hstrict
  obtain ⟨w', hv, hw', hmax'⟩ := hmax
  have : w' = w := by
    by_contra hne'
    exact absurd (hmax' w hw) (not_le.mpr (hstrict w' hw' hne'))
  rw [hv, this]

/-- Witness for `vote_of_set_order`: window `[a, a, b]` (label `a` the strict
majority), set order `[b, a]` — the vote is `a`. -/
theorem vote_of_set_order_witness :
    voteWithSetOrder ["a", "a", "b"] ["b", "a"] = some "a" :=
  (vote_of_set_order ["a", "a", "b"] ["b", "a"] (by decide) (by decide)).2
    "a" (by decide) (by decide)

/-- Claim C4 is FALSE as stated on the code: for the window `["a", "b"]`
(both labels tied at one occurrence, `a` earliest-appearing) the two set
iteration orders `["a", "b"]` and `["b", "a"]` are both permutations of the
window's distinct labels, yet `max(set(types), key=types.count)` returns a
different label under each; in particular the order `["b", "a"]` makes the
vote return `b`, which is not the earliest-appearing tied label.  The output
therefore depends on the unspecified (hash-randomised) set order, refuting
both the claimed tie-break and run-to-run determinism. -/
theorem vote_tie_break_not_deterministic_cex :
    voteWithSetOrder ["a", "b"] ["a", "b"] = some "a"
  ∧ voteWithSetOrder ["a", "b"] ["b", "a"] = some "b"
  ∧ (["a", "b"] : List String).Perm (distinctFirst ["a", "b"])
  ∧ (["b", "a"] : List String).Perm (distinctFirst ["a", "b"])
  ∧ distinctFirst ["a", "b"] = ["a", "b"]
  ∧ ("b" : String) ≠ "a" := by
  refine ⟨rfl, rfl, List.Perm.refl _, ?_, rfl, by decide⟩
  exact List.Perm.swap "a" "b" []

/-! ## Route segmenter: `UpdateGitHubPages.segment_by_surface`
(src/edge/update_github_pages.py lines 133-179, claims C3 and C7) -/

/-- One entry of the `surfaces.json` list consumed by `segment_by_surface`. -/
structure SurfaceEntry (α : Type) where
  surface_type : String
  confidence : α
  latitude : α
  longitude : α
deriving DecidableEq

/-- One output segment: coordinate list (GeoJSON `(lon, lat)` pairs), the
resolved surface type and the confidence of the triggering sample. -/
structure Segment (α : Type) where
  coordinates : List (α × α)
  surface_type : String
  confidence : α
deriving DecidableEq

/-- The loop state of `segment_by_surface`: closed segments, the open
`current_segment`, and `surface_idx`. -/
structure SegState (α : Type) where
  segments : List (Segment α)
  current : Segment α
  surfaceIdx : ℕ

/-- The body of the `for coord in coordinates` loop: when a next surface
sample exists (`surface_idx < len(surfaces) - 1`, written here as
`surfaceIdx + 1 < surfaces.length`) and the coordinate is within 5 m of that
sample's position, close the current segment (dropping it when empty) and
open a new one holding this coordinate with the next sample's type and
confidence; otherwise append the coordinate to the current segment.
`coord` is `(lon, lat)`; the geodesic call receives `(lat, lon)` pairs, so
the distance argument order is `lat lon lat' lon'`.  The external geopy
`geodesic(..).meters` is the explicit parameter `dist`. -/
def segStep {α : Type} [LinearOrderedField α] (dist : α → α → α → α → α)
    (surfaces : List (SurfaceEntry α)) (st : SegState α) (coord : α × α) : SegState α :=
  if h : st.surfaceIdx + 1 < surfaces.length then
    let nxt := surfaces.get ⟨st.surfaceIdx + 1, h⟩
    if dist coord.2 coord.1 nxt.latitude nxt.longitude < 5 then
      { segments :=
          st.segments ++ (if st.current.coordinates.isEmpty then [] else [st.current])
        current := { coordinates := [coord], surface_type := nxt.surface_type,
                     confidence := nxt.confidence }
        surfaceIdx := st.surfaceIdx + 1 }
    else
      { st with current :=
          { st.current with coordinates := st.current.coordinates ++ [coord] } }
  else
    { st with current :=
        { st.current with coordinates := st.current.coordinates ++ [coord] } }

/-- The `for coord in coordinates` loop of `segment_by_surface`. -/
def segLoop {α : Type} [LinearOrderedField α] (dist : α → α → α → α → α)
    (surfaces : List (SurfaceEntry α)) : SegState α → List (α × α) → SegState α
  | st, [] => st
  | st, c :: cs => segLoop dist surfaces (segStep dist surfaces st c) cs

/-- `UpdateGitHubPages.segment_by_surface`: with no surface samples, one
`unknown` segment holding the whole route (`confidence` 0.0); otherwise run
the loop from an empty current segment carrying the first sample's type and
confidence, and append the final current segment if nonempty. -/
def segment_by_surface {α : Type} [LinearOrderedField α] (dist : α → α → α → α → α)
    (coordinates : List (α × α)) (surfaces : List (SurfaceEntry α)) : List (Segment α) :=
  match surfaces with
  | [] => [{ coordinates := coordinates, surface_type := "unknown", confidence := 0 }]
  | s0 :: _ =>
    let final := segLoop dist surfaces
      { segments := []
        current := { coordinates := [], surface_type := s0.surface_type,
                     confidence := s0.confidence }
        surfaceIdx := 0 } coordinates
    final.segments ++ (if final.current.coordinates.isEmpty then [] else [final.current])

lemma segStep_advance {α : Type} [LinearOrderedField α] {dist : α → α → α → α → α}
    {surfaces : List (SurfaceEntry α)} {st : SegState α} {c : α × α}
    (h : st.surfaceIdx + 1 < surfaces.length)
    (h5 : dist c.2 c.1 (surfaces.get ⟨st.surfaceIdx + 1, h⟩).latitude
        (surfaces.get ⟨st.surfaceIdx + 1, h⟩).longitude < 5) :
    segStep dist surfaces st c
      = { segments :=
            st.segments ++ (if st.current.coordinates.isEmpty then [] else [st.current])
          current := { coordinates := [c]
                       surface_type := (surfaces.get ⟨st.surfaceIdx + 1, h⟩).surface_type
                       confidence := (surfaces.get ⟨st.surfaceIdx + 1, h⟩).confidence }
          surfaceIdx := st.surfaceIdx + 1 } := by
  unfold segStep
  rw [dif_pos h, if_pos h5]

lemma segStep_no_advance {α : Type} [LinearOrderedField α] {dist : α → α → α → α → α}
    {surfaces : List (SurfaceEntry α)} {st : SegState α} {c : α × α}
    (hcond : ∀ h : st.surfaceIdx + 1 < surfaces.length,
        ¬ dist c.2 c.1 (surfaces.get ⟨st.surfaceIdx + 1, h⟩).latitude
            (surfaces.get ⟨st.surfaceIdx + 1, h⟩).longitude < 5) :
    segStep dist surfaces st c
      = { st with current :=
            { st.current with coordinates := st.current.coordinates ++ [c] } } := by
  unfold segStep
  by_cases h : st.surfaceIdx + 1 < surfaces.length
  · rw [dif_pos h, if_neg (hcond h)]
  · rw [dif_neg h]

lemma segLoop_flatten {α : Type} [LinearOrderedField α] (dist : α → α → α → α → α)
    (surfaces : List (SurfaceEntry α)) :
    ∀ (cs : List (α × α)) (st : SegState α),
      (((segLoop dist surfaces st cs).segments.map Segment.coordinates).flatten
          ++ (segLoop dist surfaces st cs).current.coordinates)
        = (st.segments.map Segment.coordinates).flatten
            ++ st.current.coordinates ++ cs := by
  intro cs
  induction cs with
  | nil => intro st; simp [segLoop]
  | cons c cs ih =>
    intro st
    rw [segLoop, ih]
    unfold segStep
    by_cases h : st.surfaceIdx + 1 < surfaces.length
    · rw [dif_pos h]
      by_cases h2 : dist c.2 c.1 (surfaces.get ⟨st.surfaceIdx + 1, h⟩).latitude
          (surfaces.get ⟨st.surfaceIdx + 1, h⟩).longitude < 5
      · rw [if_pos h2]
        cases hcur : st.current.coordinates with
        | nil => simp [hcur]
        | cons p ps => simp [hcur]
      · rw [if_neg h2]
        simp
    · rw [dif_neg h]
      simp

/-- Claim C3 (amended): concatenating the segments' coordinate lists AS THEY
ARE — without removing anything — reconstructs the original route exactly;
no point is dropped, duplicated or reordered.  (Adjacent segments do NOT
share a boundary point: each route point is stored in exactly one segment;
see the counterexample for the refuted shared-boundary part.) -/
theorem segment_by_surface_concat {α : Type} [LinearOrderedField α]
    (dist : α → α → α → α → α) (coordinates : List (α × α))
    (surfaces : List (SurfaceEntry α)) :
    ((segment_by_surface dist coordinates surfaces).map Segment.coordinates).flatten
      = coordinates := by
  cases surfaces with
  | nil => simp [segment_by_surface]
  | cons s0 rest =>
    unfold segment_by_surface
    dsimp only
    have h := segLoop_flatten dist (s0 :: rest) coordinates
      { segments := []
        current := { coordinates := [], surface_type := s0.surface_type,
                     confidence := s0.confidence }
        surfaceIdx := 0 }
    simp only [List.map_nil, List.flatten_nil, List.nil_append] at h
    cases hcur : (segLoop dist (s0 :: rest)
        { segments := []
          current := { coordinates := [], surface_type := s0.surface_type,
                       confidence := s0.confidence }
          surfaceIdx := 0 } coordinates).current.coordinates with
    | nil =>
      rw [hcur] at h
      simp only [List.append_nil] at h
      simp [hcur, h]
    | cons p ps =>
      rw [hcur] at h
      conv_rhs => rw [← h]
      simp [hcur]

/-- Claim C3 is FALSE in its shared-boundary part: on a route of two points
10 m apart along the meridian of longitude 7° with two surface samples at
those positions (geopy's geodesic distance modelled by the repository's own
haversine `calculate_distance`; the refutation only uses that the distance of
a point to itself is 0 < 5 m and that 10 m is not < 5 m), the segmenter
yields two adjacent segments `[[p1], [p2]]` that share NO boundary point:
each route point is stored in exactly one segment. -/
theorem segmenter_no_shared_boundary_cex :
    ((segment_by_surface calculate_distance
        [((7 : ℝ), latOfMeters 200), ((7 : ℝ), latOfMeters 210)]
        [⟨"asphalt", 0.9, latOfMeters 200, 7⟩, ⟨"asphalt", 0.9, latOfMeters 210, 7⟩]).map
      Segment.coordinates)
      = [[((7 : ℝ), latOfMeters 200)], [((7 : ℝ), latOfMeters 210)]]
  ∧ ((7 : ℝ), latOfMeters 200) ≠ ((7 : ℝ), latOfMeters 210) := by
  have hd1 : calculate_distance (latOfMeters 200) 7 (latOfMeters 210) 7 = 10 := by
    rw [calculate_distance_latOfMeters 200 210 7 (by rw [abs_of_pos] <;> norm_num),
      abs_of_pos] <;> norm_num
  have hd2 : calculate_distance (latOfMeters 210) 7 (latOfMeters 210) 7 = 0 := by
    rw [calculate_distance_latOfMeters 210 210 7 (by norm_num)]
    norm_num
  have st1 : segStep calculate_distance
      [⟨"asphalt", 0.9, latOfMeters 200, 7⟩, ⟨"asphalt", 0.9, latOfMeters 210, 7⟩]
      ⟨[], ⟨[], "asphalt", 0.9⟩, 0⟩ ((7 : ℝ), latOfMeters 200)
      = ⟨[], ⟨[((7 : ℝ), latOfMeters 200)], "asphalt", 0.9⟩, 0⟩ := by
    rw [segStep_no_advance (fun h => by
      show ¬ calculate_distance (latOfMeters 200) 7 (latOfMeters 210) 7 < 5
      rw [hd1]; norm_num)]
    rfl
  have st2 : segStep calculate_distance
      [⟨"asphalt", 0.9, latOfMeters 200, 7⟩, ⟨"asphalt", 0.9, latOfMeters 210, 7⟩]
      ⟨[], ⟨[((7 : ℝ), latOfMeters 200)], "asphalt", 0.9⟩, 0⟩ ((7 : ℝ), latOfMeters 210)
      = ⟨[⟨[((7 : ℝ), latOfMeters 200)], "asphalt", 0.9⟩],
         ⟨[((7 : ℝ), latOfMeters 210)], "asphalt", 0.9⟩, 1⟩ := by
    rw [segStep_advance (by decide) (by
      show calculate_distance (latOfMeters 210) 7 (latOfMeters 210) 7 < 5
      rw [hd2]; norm_num)]
    rfl
  have hne : ((7 : ℝ), latOfMeters 200) ≠ ((7 : ℝ), latOfMeters 210) := by
    intro hpair
    have h2 : latOfMeters 200 = latOfMeters 210 := congrArg Prod.snd hpair
    unfold latOfMeters at h2
    have hp : (0 : ℝ) < Real.pi * 6371000 := by positivity
    field_simp at h2
    norm_num at h2
  refine ⟨?_, hne⟩
  unfold segment_by_surface
  dsimp only
  rw [segLoop, st1, segLoop, st2, segLoop]
  rfl

lemma segLoop_labels {α : Type} [LinearOrderedField α] (dist : α → α → α → α → α)
    (surfaces : List (SurfaceEntry α)) :
    ∀ (cs : List (α × α)) (st : SegState α),
      st.surfaceIdx < surfaces.length →
      List.Sublist (st.segments.map Segment.surface_type ++ [st.current.surface_type])
        ((surfaces.map SurfaceEntry.surface_type).take (st.surfaceIdx + 1)) →
      (segLoop dist surfaces st cs).surfaceIdx < surfaces.length
      ∧ List.Sublist
          ((segLoop dist surfaces st cs).segments.map Segment.surface_type
            ++ [(segLoop dist surfaces st cs).current.surface_type])
          ((surfaces.map SurfaceEntry.surface_type).take
              ((segLoop dist surfaces st cs).surfaceIdx + 1)) := by
  intro cs
  induction cs with
  | nil => intro st h1 h2; exact ⟨h1, h2⟩
  | cons c cs ih =>
    intro st h1 h2
    rw [segLoop]
    by_cases h : st.surfaceIdx + 1 < surfaces.length
    · by_cases h5 : dist c.2 c.1 (surfaces.get ⟨st.surfaceIdx + 1, h⟩).latitude
          (surfaces.get ⟨st.surfaceIdx + 1, h⟩).longitude < 5
      · have hstep : segStep dist surfaces st c
            = { segments := st.segments
                  ++ (if st.current.coordinates.isEmpty then [] else [st.current])
                current := { coordinates := [c],
                             surface_type := (surfaces.get ⟨st.surfaceIdx + 1, h⟩).surface_type
                             confidence := (surfaces.get ⟨st.surfaceIdx + 1, h⟩).confidence }
                surfaceIdx := st.surfaceIdx + 1 } := by
          unfold segStep
          rw [dif_pos h, if_pos h5]
        rw [hstep]
        apply ih
        · exact h
        · have htake : (surfaces.map SurfaceEntry.surface_type).take (st.surfaceIdx + 1 + 1)
              = (surfaces.map SurfaceEntry.surface_type).take (st.surfaceIdx + 1)
                ++ [(surfaces.get ⟨st.surfaceIdx + 1, h⟩).surface_type] := by
            rw [List.take_succ]
            congr 1
            rw [List.getElem?_map, List.getElem?_eq_getElem h]
            rfl
          rw [htake]
          dsimp only
          by_cases hcur : st.current.coordinates.isEmpty
          · rw [if_pos hcur, List.append_nil]
            have hsub : List.Sublist (st.segments.map Segment.surface_type)
                ((surfaces.map SurfaceEntry.surface_type).take (st.surfaceIdx + 1)) :=
              (List.sublist_append_left _ _).trans h2
            exact hsub.append (List.Sublist.refl _)
          · rw [if_neg hcur]
            rw [List.map_append]
            exact h2.append (List.Sublist.refl _)
      · have hstep : segStep dist surfaces st c
            = { st with current :=
                  { st.current with coordinates := st.current.coordinates ++ [c] } } := by
          unfold segStep
          rw [dif_pos h, if_neg h5]
        rw [hstep]
        exact ih _ h1 h2
    · have hstep : segStep dist surfaces st c
          = { st with current :=
                { st.current with coordinates := st.current.coordinates ++ [c] } } := by
        unfold segStep
        rw [dif_neg h]
      rw [hstep]
      exact ih _ h1 h2

/-- Claim C7 (amended): `segment_by_surface` opens a new segment exactly when
a next surface sample exists and the current route point is within 5 m of
that sample's position — the trigger is spatial proximity, NOT a change of
label; each segment's label is one of the surface samples' types taken in
order (the labels form a sublist of `unknown` followed by the sample types),
and two adjacent segments CAN carry the same label (see the counterexample). -/
theorem segmenter_proximity_trigger_and_labels {α : Type} [LinearOrderedField α]
    (dist : α → α → α → α → α) (surfaces : List (SurfaceEntry α)) :
    (∀ (st : SegState α) (c : α × α),
        ((segStep dist surfaces st c).surfaceIdx = st.surfaceIdx + 1
          ↔ ∃ h : st.surfaceIdx + 1 < surfaces.length,
              dist c.2 c.1 (surfaces.get ⟨st.surfaceIdx + 1, h⟩).latitude
                (surfaces.get ⟨st.surfaceIdx + 1, h⟩).longitude < 5))
  ∧ ∀ coordinates : List (α × α),
      List.Sublist ((segment_by_surface dist coordinates surfaces).map Segment.surface_type)
        ("unknown" :: surfaces.map SurfaceEntry.surface_type) := by
  constructor
  · intro st c
    unfold segStep
    by_cases h : st.surfaceIdx + 1 < surfaces.length
    · rw [dif_pos h]
      dsimp only
      by_cases h5 : dist c.2 c.1 (surfaces.get ⟨st.surfaceIdx + 1, h⟩).latitude
          (surfaces.get ⟨st.surfaceIdx + 1, h⟩).longitude < 5
      · rw [if_pos h5]
        exact ⟨fun _ => ⟨h, h5⟩, fun _ => rfl⟩
      · rw [if_neg h5]
        constructor
        · intro habs
          have habs' : st.surfaceIdx = st.surfaceIdx + 1 := habs
          omega
        · rintro ⟨h', hd⟩
          exact absurd hd h5
    · rw [dif_neg h]
      constructor
      · intro habs
        have habs' : st.surfaceIdx = st.surfaceIdx + 1 := habs
        omega
      · rintro ⟨h', _⟩
        exact absurd h' h
  · intro coordinates
    cases surfaces with
    | nil => simp [segment_by_surface]
    | cons s0 rest =>
      unfold segment_by_surface
      dsimp only
      obtain ⟨hlt, hsub⟩ := segLoop_labels dist (s0 :: rest) coordinates
        { segments := []
          current := { coordinates := [], surface_type := s0.surface_type,
                       confidence := s0.confidence }
          surfaceIdx := 0 }
        (by simp) (by simp)
      have hfull : List.Sublist
          ((segLoop dist (s0 :: rest)
            { segments := []
              current := { coordinates := [], surface_type := s0.surface_type,
                           confidence := s0.confidence }
              surfaceIdx := 0 } coordinates).segments.map Segment.surface_type
          ++ [(segLoop dist (s0 :: rest)
            { segments := []
              current := { coordinates := [], surface_type := s0.surface_type,
                           confidence := s0.confidence }
              surfaceIdx := 0 } coordinates).current.surface_type])
          ((s0 :: rest).map SurfaceEntry.surface_type) :=
        hsub.trans (List.take_sublist _ _)
      by_cases hcur : (segLoop dist (s0 :: rest)
          { segments := []
            current := { coordinates := [], surface_type := s0.surface_type,
                         confidence := s0.confidence }
            surfaceIdx := 0 } coordinates).current.coordinates.isEmpty
      · rw [if_pos hcur, List.append_nil]
        refine ((List.sublist_append_left _ _).trans hfull).trans ?_
        exact List.sublist_cons_self _ _
      · rw [if_neg hcur, List.map_append]
        refine (hfull.trans ?_)
        exact List.sublist_cons_self _ _

/-- Claim C7 is FALSE as stated on the code: on a route of two points 12 m
apart along the meridian of longitude 7° with two surface samples of the SAME
type `asphalt` at those positions, the segmenter (its geodesic oracle
modelled by the repository's own haversine) produces two adjacent segments
both labelled `asphalt` — the split is triggered by proximity to the second
sample, not by a label change, refuting both «a new segment starts exactly
when the label differs from the previous point's label» and «two adjacent
segments never carry the same label». -/
theorem segmenter_adjacent_same_label_cex :
    ((segment_by_surface calculate_distance
        [((7 : ℝ), latOfMeters 300), ((7 : ℝ), latOfMeters 312)]
        [⟨"asphalt", 0.8, latOfMeters 300, 7⟩, ⟨"asphalt", 0.8, latOfMeters 312, 7⟩]).map
      Segment.surface_type) = ["asphalt", "asphalt"]
  ∧ ((segment_by_surface calculate_distance
        [((7 : ℝ), latOfMeters 300), ((7 : ℝ), latOfMeters 312)]
        [⟨"asphalt", 0.8, latOfMeters 300, 7⟩, ⟨"asphalt", 0.8, latOfMeters 312, 7⟩]).map
      Segment.coordinates)
      = [[((7 : ℝ), latOfMeters 300)], [((7 : ℝ), latOfMeters 312)]] := by
  have hd1 : calculate_distance (latOfMeters 300) 7 (latOfMeters 312) 7 = 12 := by
    rw [calculate_distance_latOfMeters 300 312 7 (by rw [abs_of_pos] <;> norm_num),
      abs_of_pos] <;> norm_num
  have hd2 : calculate_distance (latOfMeters 312) 7 (latOfMeters 312) 7 = 0 := by
    rw [calculate_distance_latOfMeters 312 312 7 (by norm_num)]
    norm_num
  have st1 : segStep calculate_distance
      [⟨"asphalt", 0.8, latOfMeters 300, 7⟩, ⟨"asphalt", 0.8, latOfMeters 312, 7⟩]
      ⟨[], ⟨[], "asphalt", 0.8⟩, 0⟩ ((7 : ℝ), latOfMeters 300)
      = ⟨[], ⟨[((7 : ℝ), latOfMeters 300)], "asphalt", 0.8⟩, 0⟩ := by
    rw [segStep_no_advance (fun h => by
      show ¬ calculate_distance (latOfMeters 300) 7 (latOfMeters 312) 7 < 5
      rw [hd1]; norm_num)]
    rfl
  have st2 : segStep calculate_distance
      [⟨"asphalt", 0.8, latOfMeters 300, 7⟩, ⟨"asphalt", 0.8, latOfMeters 312, 7⟩]
      ⟨[], ⟨[((7 : ℝ), latOfMeters 300)], "asphalt", 0.8⟩, 0⟩ ((7 : ℝ), latOfMeters 312)
      = ⟨[⟨[((7 : ℝ), latOfMeters 300)], "asphalt", 0.8⟩],
         ⟨[((7 : ℝ), latOfMeters 312)], "asphalt", 0.8⟩, 1⟩ := by
    rw [segStep_advance (by decide) (by
      show calculate_distance (latOfMeters 312) 7 (latOfMeters 312) 7 < 5
      rw [hd2]; norm_num)]
    rfl
  constructor <;>
    (unfold segment_by_surface
     dsimp only
     rw [segLoop, st1, segLoop, st2, segLoop]
     rfl)

/-! ## Upload / local-backup pipeline (src/edge/main.py, claims C2 and C9) -/

/-- One record of `session_data` as built in `start_session` (the fields
`convert_to_geojson` reads; the per-frame detection payload is opaque).
Python floats are modelled by `ℚ`. -/
structure DetectionRecord where
  timestamp : ℚ
  latitude : ℚ
  longitude : ℚ
  altitude : ℚ
  speed : ℚ
  detections : List String
deriving DecidableEq

/-- One feature produced by `convert_to_geojson`: geometry type `Point`,
coordinates `[longitude, latitude]`, and the copied properties. -/
structure PointFeature where
  geometry_type : String
  coordinates : ℚ × ℚ
  timestamp : ℚ
  detections : List String
  altitude : ℚ
  speed : ℚ
deriving DecidableEq

/-- The GeoJSON document written to one backup file (the `generated`
wall-clock metadata is not modelled). -/
structure FeatureCollection where
  features : List PointFeature
  total_features : ℕ
deriving DecidableEq

/-- `BikeEdgeSystem.convert_to_geojson`. -/
def convert_to_geojson (data : List DetectionRecord) : FeatureCollection :=
  let features := data.map fun r =>
    { geometry_type := "Point", coordinates := (r.longitude, r.latitude),
      timestamp := r.timestamp, detections := r.detections,
      altitude := r.altitude, speed := r.speed }
  { features := features, total_features := features.length }

/-- The state `upload_to_cloud` / `save_local_backup` manipulate: the
in-memory outbound buffer `session_data`, the cached `ride_id`, and the
backup directory as the list of backup files in modification-time order
(oldest first; a new file is appended at the end). -/
structure EdgeState where
  session_data : List DetectionRecord
  ride_id : Option String
  backups : List FeatureCollection
deriving DecidableEq

/-- Outcome of one delivery attempt: a 2xx response with its parsed
`ride_id`, or one of the failure modes the code distinguishes — connection
error, timeout, or any other exception (including the `HTTPError` that
`raise_for_status` raises on a non-2xx response). -/
inductive UploadResult where
  | success (ride_id : Option String)
  | connectionError
  | timeout
  | otherError
deriving DecidableEq

def UploadResult.isFailure : UploadResult → Bool
  | .success _ => false
  | .connectionError => true
  | .timeout => true
  | .otherError => true

/-- Python slice `l[:-k]`: empty when `k = 0` (since `-0 == 0`), otherwise
the first `length - k` elements. -/
def pySliceDropLast {β : Type} (l : List β) (k : ℕ) : List β :=
  if k = 0 then [] else l.take (l.length - k)

/-- `BikeEdgeSystem.cleanup_old_backups`: when the backup count exceeds
`max_files`, unlink the files of the slice `backup_files[:-max_files]` (the
oldest by modification time); the result is the remaining list. -/
def cleanup_old_backups (max_files : ℕ) (backup_files : List FeatureCollection) :
    List FeatureCollection :=
  if max_files < backup_files.length then
    backup_files.drop (pySliceDropLast backup_files max_files).length
  else backup_files

/-- `BikeEdgeSystem.save_local_backup data`: when `data` is nonempty, write
one new backup file holding `convert_to_geojson data`, then rotate. -/
def save_local_backup (max_files : ℕ) (data : List DetectionRecord)
    (s : EdgeState) : EdgeState :=
  if data.isEmpty then s
  else
    { s with backups :=
        cleanup_old_backups max_files (s.backups ++ [convert_to_geojson data]) }

/-- `BikeEdgeSystem.upload_to_cloud` for one delivery attempt with outcome
`res`: nothing happens on an empty buffer; on success the `ride_id` is
cached and the uploaded records are removed from the buffer
(`[d for d in self.session_data if d not in data_to_upload]`); on any
failure the attempted batch is saved locally — and the buffer is left
untouched. -/
def upload_to_cloud (max_files : ℕ) (res : UploadResult) (s : EdgeState) : EdgeState :=
  if s.session_data.isEmpty then s
  else
    let data_to_upload := s.session_data
    match res with
    | .success rid =>
      { s with ride_id := rid,
               session_data :=
                 s.session_data.filter (fun d => !(data_to_upload.contains d)) }
    | .connectionError => save_local_backup max_files data_to_upload s
    | .timeout => save_local_backup max_files data_to_upload s
    | .otherError => save_local_backup max_files data_to_upload s

/-- The ten buffered detection records of the spec's Scenario B. -/
def scenarioBRecords : List DetectionRecord :=
  (List.range 10).map fun i => ⟨i, 50 + i, 9 + i, 100, 5, ["pothole"]⟩

/-- Claim C2 is FALSE in its buffer-clearing part: with 10 buffered events
and a connection-refused delivery, exactly one backup file holding all 10
events as Point features is written (that much holds), but the outbound
buffer is NOT empty afterwards — `upload_to_cloud` only removes uploaded
records on the success path, so the backed-up batch stays in `session_data`
and is included again in the next delivery attempt. -/
theorem upload_failure_buffer_not_cleared_cex :
    (upload_to_cloud 5 .connectionError ⟨scenarioBRecords, none, []⟩).backups
        = [convert_to_geojson scenarioBRecords]
  ∧ (convert_to_geojson scenarioBRecords).features.length = 10
  ∧ (convert_to_geojson scenarioBRecords).features.map PointFeature.geometry_type
      = List.replicate 10 "Point"
  ∧ (upload_to_cloud 5 .connectionError ⟨scenarioBRecords, none, []⟩).session_data
      = scenarioBRecords
  ∧ scenarioBRecords ≠ [] := by
  refine ⟨rfl, rfl, ?_, rfl, by decide⟩
  rfl

/-- Claim C2 (amended): on every failed delivery attempt (connection error,
timeout, or any other error — including non-2xx) with a nonempty buffer and
room under the rotation limit, the whole attempted batch is appended as ONE
new backup file whose features are all of type Point, one per buffered
record — but the in-memory buffer keeps the very same records, so
already-backed-up data IS included in subsequent delivery attempts
(at-least-once with possible duplication rather than the claimed clearing). -/
theorem upload_failure_backup_once_buffer_kept
    (max_files : ℕ) (res : UploadResult) (s : EdgeState)
    (hfail : res.isFailure = true) (hne : s.session_data ≠ [])
    (hroom : s.backups.length + 1 ≤ max_files) :
    (upload_to_cloud max_files res s).backups
        = s.backups ++ [convert_to_geojson s.session_data]
  ∧ (upload_to_cloud max_files res s).session_data = s.session_data
  ∧ (convert_to_geojson s.session_data).features.length = s.session_data.length
  ∧ ∀ f ∈ (convert_to_geojson s.session_data).features, f.geometry_type = "Point" := by
  have hnemp : s.session_data.isEmpty = false := by
    cases hsd : s.session_data with
    | nil => exact absurd hsd hne
    | cons r rs => rfl
  have hsave : save_local_backup max_files s.session_data s
      = { s with backups := s.backups ++ [convert_to_geojson s.session_data] } := by
    unfold save_local_backup
    rw [if_neg (by rw [hnemp]; exact Bool.false_ne_true)]
    have hclean : cleanup_old_backups max_files
        (s.backups ++ [convert_to_geojson s.session_data])
        = s.backups ++ [convert_to_geojson s.session_data] := by
      unfold cleanup_old_backups
      rw [if_neg]
      rw [List.length_append, List.length_cons, List.length_nil]
      omega
    rw [hclean]
  have hupload : upload_to_cloud max_files res s
      = { s with backups := s.backups ++ [convert_to_geojson s.session_data] } := by
    unfold upload_to_cloud
    rw [if_neg (by rw [hnemp]; exact Bool.false_ne_true)]
    cases res with
    | success rid => exact absurd hfail (by simp [UploadResult.isFailure])
    | connectionError => exact hsave
    | timeout => exact hsave
    | otherError => exact hsave
  refine ⟨by rw [hupload], by rw [hupload], ?_, ?_⟩
  · unfold convert_to_geojson
    simp
  · intro f hf
    unfold convert_to_geojson at hf
    simp only [List.mem_map] at hf
    obtain ⟨r, _, hr⟩ := hf
    rw [← hr]

/-- Witness for `upload_failure_backup_once_buffer_kept` at a concrete
state: two buffered records, one existing backup, limit 3, timeout. -/
theorem upload_failure_backup_once_buffer_kept_witness :
    (upload_to_cloud 3 .timeout
        ⟨[⟨1, 50, 9, 0, 0, []⟩, ⟨2, 51, 9, 0, 0, []⟩], none, [⟨[], 0⟩]⟩).backups
        = [⟨[], 0⟩] ++ [convert_to_geojson [⟨1, 50, 9, 0, 0, []⟩, ⟨2, 51, 9, 0, 0, []⟩]]
  ∧ (upload_to_cloud 3 .timeout
        ⟨[⟨1, 50, 9, 0, 0, []⟩, ⟨2, 51, 9, 0, 0, []⟩], none, [⟨[], 0⟩]⟩).session_data
      = [⟨1, 50, 9, 0, 0, []⟩, ⟨2, 51, 9, 0, 0, []⟩]
  ∧ (convert_to_geojson [⟨1, 50, 9, 0, 0, []⟩, ⟨2, 51, 9, 0, 0, []⟩]).features.length
      = ([⟨1, 50, 9, 0, 0, []⟩, ⟨2, 51, 9, 0, 0, []⟩] : List DetectionRecord).length
  ∧ (convert_to_geojson [⟨1, 50, 9, 0, 0, []⟩, ⟨2, 51, 9, 0, 0, []⟩]).features.map
      PointFeature.geometry_type = ["Point", "Point"] :=
  have h := upload_failure_backup_once_buffer_kept 3 .timeout
    ⟨[⟨1, 50, 9, 0, 0, []⟩, ⟨2, 51, 9, 0, 0, []⟩], none, [⟨[], 0⟩]⟩
    rfl (by decide) (by decide)
  ⟨h.1, h.2.1, h.2.2.1, rfl⟩

/-- Claim C9 is FALSE for `max_backup_files = 0`: with one backup file
present the count 1 exceeds the limit 0 and rotation runs, yet — because the
Python slice `files[:-0]` is empty — nothing is deleted and one file
remains, violating «at most max_backup_files backup files remain afterward». -/
theorem cleanup_max_zero_deletes_nothing_cex :
    cleanup_old_backups 0 [⟨[], 0⟩] = [⟨[], 0⟩]
  ∧ ([(⟨[], 0⟩ : FeatureCollection)] : List FeatureCollection).length = 1
  ∧ ¬ (1 ≤ 0) := by
  refine ⟨?_, rfl, by omega⟩
  rfl

lemma getLast?_drop_of_lt {β : Type} :
    ∀ (l : List β) (n : ℕ), n < l.length → (l.drop n).getLast? = l.getLast? := by
  intro l
  induction l with
  | nil => intro n h; cases h
  | cons x xs ih =>
    intro n h
    cases n with
    | zero => rfl
    | succ n =>
      cases xs with
      | nil =>
        simp at h
      | cons y ys =>
        rw [List.drop_succ_cons, List.getLast?_cons_cons]
        exact ih n (by simpa using h)

/-- Claim C9 (amended): for every `max_backup_files ≥ 1` the rotation leaves
at most `max_backup_files` backup files and never deletes the most recently
written one; for `max_backup_files = 0`, however, the rotation deletes
NOTHING (the slice `files[:-0]` is empty), so the count is not brought
within the limit. -/
theorem cleanup_old_backups_bound (max_files : ℕ)
    (files : List FeatureCollection) (h1 : 1 ≤ max_files) :
    (cleanup_old_backups max_files files).length ≤ max_files
  ∧ (cleanup_old_backups max_files files).getLast? = files.getLast?
  ∧ ∀ files0 : List FeatureCollection, cleanup_old_backups 0 files0 = files0 := by
  have hzero : ∀ files0 : List FeatureCollection, cleanup_old_backups 0 files0 = files0 := by
    intro files0
    unfold cleanup_old_backups pySliceDropLast
    split
    · rw [if_pos rfl]
      rfl
    · rfl
  by_cases hlen : max_files < files.length
  · have hk : max_files ≠ 0 := by omega
    have hdrop : cleanup_old_backups max_files files
        = files.drop (files.length - max_files) := by
      unfold cleanup_old_backups pySliceDropLast
      rw [if_pos hlen, if_neg hk, List.length_take]
      congr 1
      omega
    refine ⟨?_, ?_, hzero⟩
    · rw [hdrop, List.length_drop]
      omega
    · rw [hdrop]
      exact getLast?_drop_of_lt files (files.length - max_files) (by omega)
  · have heq : cleanup_old_backups max_files files = files := by
      unfold cleanup_old_backups
      rw [if_neg hlen]
    exact ⟨by rw [heq]; omega, by rw [heq], hzero⟩

/-- Witness for `cleanup_old_backups_bound`: limit 1, two backup files. -/
theorem cleanup_old_backups_bound_witness :
    (cleanup_old_backups 1 [⟨[], 0⟩, ⟨[], 1⟩]).length ≤ 1
  ∧ (cleanup_old_backups 1 [⟨[], 0⟩, ⟨[], 1⟩]).getLast?
      = ([⟨[], 0⟩, ⟨[], 1⟩] : List FeatureCollection).getLast?
  ∧ cleanup_old_backups 0 [⟨[], 2⟩] = [⟨[], 2⟩] :=
  have h := cleanup_old_backups_bound 1 [⟨[], 0⟩, ⟨[], 1⟩] (by omega)
  ⟨h.1, h.2.1, h.2.2 [⟨[], 2⟩]⟩

end BikeSurface
